import Mathlib

/-!
Verification of the interactive command state-machine engine of the `snap`
terminal tool (Go sources: `model.go`, `main.go`, and the flow models for the
commit-history browser and the tag browser).

Each Bubble Tea model is embedded as a Lean structure, its `Update` method as a
pure Lean function on that structure.  Events (`tea.Msg` values) and commands
(`tea.Cmd` values) become inductive types.  The external text-input component
from the `bubbles` library is not repository code; the engine functions take an
arbitrary update function for it as an explicit parameter, and an executable
stand-in (`textInputModel`) instantiates concrete runs.  Spinner tick messages
and all styling are presentation-only and are omitted: they touch no field the
transition logic reads.  Go `error` values are embedded as `Option String`
(`none` = nil), and `fmt.Errorf` results as the corresponding message strings.
-/

/-- Substring search on character lists: `startsWithSeq l p` is true when `p`
is a prefix of `l`.  Used to embed Go `strings.Contains`. -/
def startsWithSeq : List Char → List Char → Bool
  | _, [] => true
  | [], _ :: _ => false
  | a :: as, b :: bs => a = b && startsWithSeq as bs

/-- `containsSeq l p` is true when `p` occurs contiguously inside `l`;
embeds Go `strings.Contains` at the character level. -/
def containsSeq : List Char → List Char → Bool
  | [], p => p.isEmpty
  | a :: as, p => startsWithSeq (a :: as) p || containsSeq as p

/-- Embedding of Go `strings.Contains sub` on strings. -/
def strContains (s sub : String) : Bool :=
  containsSeq s.data sub.data

/-- Embedding of Go `strings.ToLower` (character-wise lowering). -/
def lowerStr (s : String) : String :=
  ⟨s.data.map Char.toLower⟩

/-- Embedding of Go `strings.TrimSpace`: drop whitespace from both ends. -/
def trimSpace (s : String) : String :=
  ⟨((s.data.dropWhile Char.isWhitespace).reverse.dropWhile Char.isWhitespace).reverse⟩

/-- Split helper for `splitOnColon`: accumulates the current chunk reversed. -/
def splitOnCharAux (sep : Char) : List Char → List Char → List (List Char)
  | [], acc => [acc.reverse]
  | c :: cs, acc =>
    if c = sep then acc.reverse :: splitOnCharAux sep cs []
    else splitOnCharAux sep cs (c :: acc)

/-- Embedding of Go `strings.Split(s, ":")`. -/
def splitOnColon (s : String) : List String :=
  (splitOnCharAux ':' s.data []).map (fun cs => ⟨cs⟩)

/-! ## Save flow (`model` in model.go) -/

/-- The `state` enum of the save flow (model.go). -/
inductive state where
  | checking | staging | gettingDiff | generating
  | confirming | editing | committing | done | error
  deriving DecidableEq, Repr

/-- Terminal states of the save flow: the driver stops the loop there
(`tea.Quit` has been issued and the final view is rendered once). -/
def state.isTerminal : state → Bool
  | .done => true
  | .error => true
  | _ => false

/-- The save-flow session (`model` struct in model.go).  `textInput` is the
value held by the external text-input component; `err` is the `lastError`
slot; spinner omitted (presentation only). -/
structure model where
  state : state
  textInput : String
  err : Option String
  diff : String
  commitMessage : String
  originalMsg : String
  cursor : Int
  seed : Int
  ollamaRunning : Bool
  stagedChanges : Bool
  generatedMsg : Bool
  userConfirmed : Bool
  useCustomMsg : Bool
  deriving DecidableEq, Repr

/-- Events consumed by the save flow: key presses and the completion
messages of the five scheduled operations (model.go msg structs). -/
inductive Msg where
  | key (s : String)
  | checkOllama (running : Bool)
  | stageChanges (err : Option String)
  | getDiff (diff : String) (err : Option String)
  | generateMsg (message : String) (err : Option String)
  | commit (err : Option String)
  deriving DecidableEq, Repr

/-- Commands a save-flow transition can schedule.  `quit` is Bubble Tea
`tea.Quit` (a driver signal), `blink` is `textinput.Blink` (presentation);
the remaining constructors are the external effects of model.go. -/
inductive Cmd where
  | quit
  | blink
  | checkOllamaEff
  | stageChangesEff
  | getDiffEff
  | generateMessageEff (diff : String) (seed : Int)
  | commitChangesEff (message : String)
  deriving DecidableEq, Repr

/-- An `Effect` in the sense of the specification is a description of one
external operation; `tea.Quit` and `textinput.Blink` are driver/presentation
signals, not effects. -/
def Cmd.isEffect : Cmd → Bool
  | .quit => false
  | .blink => false
  | _ => true

/-- Embedding of `model.Update` (model.go lines 142-274).  `tiUpd` is the
update function of the external text-input component (value-level): the Go
code calls `m.textInput.Update(msg)` in the editing-state default branch;
its returned command is presentation-only and embedded as `none`. -/
def model.Update (tiUpd : String → String → String) (m : model) (msg : Msg) :
    model × Option Cmd :=
  match msg with
  | .key s =>
    if m.state = state.editing then
      if s = "ctrl+c" ∨ s = "q" then
        ({ m with commitMessage := m.originalMsg, state := state.confirming }, none)
      else if s = "enter" then
        let m1 := { m with commitMessage := m.textInput }
        if trimSpace m1.commitMessage = "" then
          ({ m1 with state := state.error,
                     err := some "commit message cannot be empty" }, some Cmd.quit)
        else
          ({ m1 with state := state.committing },
            some (Cmd.commitChangesEff m1.commitMessage))
      else
        ({ m with textInput := tiUpd m.textInput s }, none)
    else
      if s = "ctrl+c" ∨ s = "q" then
        if m.state ≠ state.confirming then
          (m, some Cmd.quit)
        else
          ({ m with state := state.done, err := some "commit cancelled" }, some Cmd.quit)
      else if s = "y" ∨ s = "Y" then
        if m.state = state.confirming then
          ({ m with state := state.committing },
            some (Cmd.commitChangesEff m.commitMessage))
        else (m, none)
      else if s = "n" ∨ s = "N" then
        if m.state = state.confirming then
          ({ m with state := state.done, err := some "commit cancelled" }, some Cmd.quit)
        else (m, none)
      else if s = "e" ∨ s = "E" then
        if m.state = state.confirming then
          ({ m with originalMsg := m.commitMessage,
                    textInput := m.commitMessage,
                    state := state.editing }, some Cmd.blink)
        else (m, none)
      else (m, none)
  | .checkOllama running =>
    if !running then
      ({ m with state := state.error,
                err := some "Ollama is not running. Please start Ollama first" },
        some Cmd.quit)
    else
      ({ m with ollamaRunning := true, state := state.staging }, some Cmd.stageChangesEff)
  | .stageChanges e =>
    match e with
    | some msg => ({ m with state := state.error, err := some msg }, some Cmd.quit)
    | none =>
      ({ m with stagedChanges := true, state := state.gettingDiff }, some Cmd.getDiffEff)
  | .getDiff diff e =>
    match e with
    | some msg => ({ m with state := state.error, err := some msg }, some Cmd.quit)
    | none =>
      if trimSpace diff = "" then
        ({ m with state := state.error, err := some "no changes to commit" }, some Cmd.quit)
      else
        let m1 := { m with diff := diff }
        if m1.useCustomMsg then
          ({ m1 with state := state.confirming }, none)
        else
          ({ m1 with state := state.generating },
            some (Cmd.generateMessageEff diff m1.seed))
  | .generateMsg message e =>
    match e with
    | some msg => ({ m with state := state.error, err := some msg }, some Cmd.quit)
    | none =>
      ({ m with commitMessage := message, generatedMsg := true,
                state := state.confirming }, none)
  | .commit e =>
    match e with
    | some msg => ({ m with state := state.error, err := some msg }, some Cmd.quit)
    | none => ({ m with state := state.done }, some Cmd.quit)

/-- The `generateMsgMsg` case of the other revision of the save flow kept in
the repository (src/unnamed/part_001, lines 255-281): it validates the
generated message (trimmed-empty check, then conventional-commit shape). -/
def generateMsgHandlerV2 (m : model) (message : String) (e : Option String) :
    model × Option Cmd :=
  match e with
  | some msg => ({ m with state := state.error, err := some msg }, some Cmd.quit)
  | none =>
    let cleanMsg := trimSpace message
    if cleanMsg = "" then
      ({ m with state := state.error,
                err := some "AI generated an empty commit message. Try again or use custom message" },
        some Cmd.quit)
    else
      let parts := splitOnColon cleanMsg
      if parts.length < 2 ∨ parts.headD "" = "" then
        ({ m with state := state.error,
                  err := some ("Invalid commit message format: \"" ++ cleanMsg ++
                               "\". Expected: type: description") }, some Cmd.quit)
      else
        ({ m with commitMessage := cleanMsg, generatedMsg := true,
                  state := state.confirming }, none)

/-- Executable stand-in for the external bubbles text-input component (library
code, not part of this repository): a single-character key is appended, a
backspace removes the last character, anything else leaves the value as is.
Engine theorems are stated for an arbitrary update function; this one
instantiates witnesses and concrete runs. -/
def textInputModel (v : String) (k : String) : String :=
  if k = "backspace" then ⟨v.data.dropLast⟩
  else if k.length = 1 then v ++ k
  else v

/-- Fold a list of events through the save-flow transition, keeping the model. -/
def applyMsgs (tiUpd : String → String → String) (m : model) (es : List Msg) : model :=
  es.foldl (fun acc e => (model.Update tiUpd acc e).1) m

/-- `initialModel` (model.go lines 91-108) with the text input embedded by its
value. -/
def initialModel (seed : Int) : model :=
  { state := state.checking, textInput := "", err := none, diff := "",
    commitMessage := "", originalMsg := "", cursor := 0, seed := seed,
    ollamaRunning := false, stagedChanges := false, generatedMsg := false,
    userConfirmed := false, useCustomMsg := false }

/-! ## Driver exit behaviour (main.go, "save" and "sync" cases)

After `tea.NewProgram(...).Run()` returns, main.go exits with status 1 only
when `Run` itself returned an error (a failure of the loop machinery); in
every other case the process ends with status 0.  The final session returned
by `Run` is discarded (`if _, err := p.Run(); ...`), so the exit status
never depends on it. -/

/-- Exit status of the `snap save` driver (main.go lines 351-362): the final
session is ignored; only a failure of the event loop itself yields status 1. -/
def saveDriverExitCode (_finalSession : model) (runFailed : Bool) : Nat :=
  if runFailed then 1 else 0

/-! ## Replay flow (`replayModel` in model.go) -/

/-- The `replayState` enum (model.go lines 691-701). -/
inductive replayState where
  | checking | showingCommits | confirming | replaying | conflict | done | error
  deriving DecidableEq, Repr

/-- Commit metadata (`CommitInfo` struct in git.go lines 208-215). -/
structure CommitInfo where
  Hash : String
  ShortHash : String
  Message : String
  Author : String
  Date : String
  RelativeTime : String
  deriving DecidableEq, Repr

/-- The replay-flow session (`replayModel` struct, model.go lines 703-713). -/
structure replayModel where
  state : replayState
  err : Option String
  ontoBranch : String
  currentBranch : String
  commits : List CommitInfo
  interactive : Bool
  output : String
  cursor : Int
  deriving DecidableEq, Repr

/-- Replay-flow events: keys and the completion messages of the rebase check,
the commit listing and the replay itself (model.go lines 715-728). -/
inductive replayMsg where
  | key (s : String)
  | checkRebase (inProgress : Bool) (err : Option String)
  | getReplayCommits (commits : List CommitInfo) (err : Option String)
  | replayCommits (output : String) (err : Option String)
  deriving DecidableEq, Repr

/-- Commands the replay flow schedules. -/
inductive replayCmd where
  | quit
  | getReplayCommitsEff (onto : String)
  | replayCommitsEff (onto : String)
  deriving DecidableEq, Repr

/-- The repository state `replayModel.Update` reads outside of its two
arguments: the Go code calls `GetCurrentBranch()` (a `git` invocation
returning `(string, error)`) in the middle of the `checkRebaseMsg` case
(model.go line 789).  The embedding makes that hidden read an explicit
parameter. -/
structure gitEnv where
  currentBranch : String
  currentBranchErr : Option String
  deriving DecidableEq, Repr

/-- Embedding of `replayModel.Update` (model.go lines 747-842).  `env` is the
response of the `GetCurrentBranch()` call performed inside the
`checkRebaseMsg` case; no other case consults it. -/
def replayModel.Update (env : gitEnv) (m : replayModel) (msg : replayMsg) :
    replayModel × Option replayCmd :=
  match msg with
  | .key s =>
    if m.state = replayState.showingCommits then
      if s = "ctrl+c" ∨ s = "q" ∨ s = "n" ∨ s = "N" then
        ({ m with state := replayState.done, err := some "replay cancelled" },
          some replayCmd.quit)
      else if s = "y" ∨ s = "Y" ∨ s = "enter" then
        ({ m with state := replayState.replaying },
          some (replayCmd.replayCommitsEff m.ontoBranch))
      else (m, none)
    else if m.state = replayState.confirming then
      if s = "ctrl+c" ∨ s = "q" ∨ s = "n" ∨ s = "N" then
        ({ m with state := replayState.done, err := some "replay cancelled" },
          some replayCmd.quit)
      else if s = "y" ∨ s = "Y" then
        ({ m with state := replayState.replaying },
          some (replayCmd.replayCommitsEff m.ontoBranch))
      else (m, none)
    else (m, none)
  | .checkRebase inProgress e =>
    match e with
    | some msg => ({ m with state := replayState.error, err := some msg }, some replayCmd.quit)
    | none =>
      if inProgress then
        ({ m with state := replayState.error,
                  err := some "rebase already in progress. Use \x27git rebase --continue\x27, \x27--skip\x27, or \x27--abort\x27" },
          some replayCmd.quit)
      else
        match env.currentBranchErr with
        | some msg =>
          ({ m with state := replayState.error, err := some msg }, some replayCmd.quit)
        | none =>
          let m1 := { m with currentBranch := env.currentBranch }
          if env.currentBranch = m1.ontoBranch then
            ({ m1 with state := replayState.error,
                       err := some ("already on branch \x27" ++ m1.ontoBranch ++
                                    "\x27, nothing to replay") }, some replayCmd.quit)
          else
            (m1, some (replayCmd.getReplayCommitsEff m1.ontoBranch))
  | .getReplayCommits commits e =>
    match e with
    | some msg => ({ m with state := replayState.error, err := some msg }, some replayCmd.quit)
    | none =>
      let m1 := { m with commits := commits }
      if commits.length = 0 then
        ({ m1 with state := replayState.error,
                   err := some ("no commits to replay (already up to date with \x27" ++
                                m1.ontoBranch ++ "\x27)") }, some replayCmd.quit)
      else
        ({ m1 with state := replayState.showingCommits }, none)
  | .replayCommits output e =>
    match e with
    | some msg =>
      if strContains output "CONFLICT" || strContains output "conflict" then
        ({ m with state := replayState.conflict, output := output }, some replayCmd.quit)
      else
        ({ m with state := replayState.error, err := some msg, output := output },
          some replayCmd.quit)
    | none =>
      ({ m with output := output, state := replayState.done }, some replayCmd.quit)

/-- `initialReplayModel` (model.go lines 730-741). -/
def initialReplayModel (ontoBranch : String) (interactive : Bool) : replayModel :=
  { state := replayState.checking, err := none, ontoBranch := ontoBranch,
    currentBranch := "", commits := [], interactive := interactive,
    output := "", cursor := 0 }

/-! ## Stack flow (`stackModel`, commit-history browser, src/unnamed/part_001) -/

/-- The `stackState` enum (part_001 lines 984-992). -/
inductive stackState where
  | loading | list | filtering | checkingOut | showingDetails | done | error
  deriving DecidableEq, Repr

/-- The commit-history browser session (`stackModel` struct, part_001 lines
994-1011).  The cursor is a Go `int`, embedded as `Int` because the code can
drive it below zero.  `selectedCommit` embeds the Go pointer as an option. -/
structure stackModel where
  state : stackState
  textInput : String
  commits : List CommitInfo
  filteredCommits : List CommitInfo
  cursor : Int
  err : Option String
  allBranches : Bool
  mineOnly : Bool
  filePath : String
  author : String
  limit : Int
  filterMode : Bool
  filterQuery : String
  showHelp : Bool
  selectedCommit : Option CommitInfo
  deriving DecidableEq, Repr

/-- Stack-flow events (part_001 lines 1013-1020 and key presses). -/
inductive stackMsg where
  | key (s : String)
  | getCommits (commits : List CommitInfo) (err : Option String)
  | checkoutCommit (err : Option String)
  deriving DecidableEq, Repr

/-- Commands the stack flow schedules. -/
inductive stackCmd where
  | quit
  | blink
  | checkoutCommitEff (hash : String)
  deriving DecidableEq, Repr

/-- Predicate of `stackModel.applyFilter` (part_001 lines 1197-1204): some
searchable field of the commit - message, full hash, short hash, author -
contains the query, both sides lowered. -/
def commitMatches (query : String) (c : CommitInfo) : Bool :=
  strContains (lowerStr c.Message) (lowerStr query) ||
  strContains (lowerStr c.Hash) (lowerStr query) ||
  strContains (lowerStr c.ShortHash) (lowerStr query) ||
  strContains (lowerStr c.Author) (lowerStr query)

/-- Embedding of `stackModel.applyFilter` (part_001 lines 1188-1208): an empty
query restores the master list, otherwise the master list is re-scanned and
the matching commits are collected in order. -/
def stackModel.applyFilter (m : stackModel) : stackModel :=
  if m.filterQuery = "" then
    { m with filteredCommits := m.commits }
  else
    { m with filteredCommits := m.commits.filter (commitMatches m.filterQuery) }

/-- Embedding of `stackModel.getDisplayCommits` (part_001 lines 1210-1221).
The Go nil-slice guards collapse: Lean lists are total. -/
def stackModel.getDisplayCommits (m : stackModel) : List CommitInfo :=
  if m.filterQuery ≠ "" then m.filteredCommits else m.commits

/-- Embedding of `stackModel.Update` (part_001 lines 1067-1186).  As for the
save flow, `tiUpd` is the external text-input component and its own returned
command is embedded as `none`.  In the `enter` branch Go indexes
`commits[m.cursor]` directly after checking `len > 0 && cursor < len`; the
embedding uses the optional lookup at `cursor.toNat` (a negative cursor would
make the Go program panic, which no claim exercises). -/
def stackModel.Update (tiUpd : String → String → String) (m : stackModel)
    (msg : stackMsg) : stackModel × Option stackCmd :=
  match msg with
  | .key s =>
    if m.state = stackState.list then
      if !m.filterMode ∧ s = "/" then
        ({ m with filterMode := true, filterQuery := "", textInput := "" },
          some stackCmd.blink)
      else if m.filterMode then
        if s = "esc" ∨ s = "ctrl+c" ∨ s = "q" then
          ({ m with filterMode := false, filterQuery := "", textInput := "",
                    filteredCommits := m.commits, cursor := 0 }, none)
        else if s = "enter" then
          ({ m with filterMode := false }, none)
        else
          let m1 := { m with textInput := tiUpd m.textInput s }
          let m2 := { m1 with filterQuery := m1.textInput }
          ({ m2.applyFilter with cursor := 0 }, none)
      else
        if s = "ctrl+c" ∨ s = "q" then (m, some stackCmd.quit)
        else if s = "up" ∨ s = "k" then
          (if m.cursor > 0 then { m with cursor := m.cursor - 1 } else m, none)
        else if s = "down" ∨ s = "j" then
          (if m.cursor < (m.getDisplayCommits.length : Int) - 1 then
            { m with cursor := m.cursor + 1 } else m, none)
        else if s = "g" then ({ m with cursor := 0 }, none)
        else if s = "G" then
          ({ m with cursor := (m.getDisplayCommits.length : Int) - 1 }, none)
        else if s = "c" then
          ({ m with filterQuery := "", textInput := "",
                    filteredCommits := m.commits, cursor := 0 }, none)
        else if s = "enter" then
          let commits := m.getDisplayCommits
          if 0 < commits.length ∧ m.cursor < (commits.length : Int) then
            match commits[m.cursor.toNat]? with
            | some c =>
              ({ m with selectedCommit := some c, state := stackState.checkingOut },
                some (stackCmd.checkoutCommitEff c.Hash))
            | none => (m, none)
          else (m, none)
        else if s = "?" then ({ m with showHelp := !m.showHelp }, none)
        else (m, none)
    else (m, none)
  | .getCommits commits e =>
    match e with
    | some msg => ({ m with state := stackState.error, err := some msg }, some stackCmd.quit)
    | none =>
      let m1 := { m with commits := commits, filteredCommits := commits }
      if commits.length = 0 then
        ({ m1 with state := stackState.error, err := some "no commits found" },
          some stackCmd.quit)
      else
        ({ m1 with state := stackState.list }, none)
  | .checkoutCommit e =>
    match e with
    | some msg => ({ m with state := stackState.error, err := some msg }, some stackCmd.quit)
    | none => ({ m with state := stackState.done }, some stackCmd.quit)

/-- Fold a list of events through the stack-flow transition. -/
def stackApplyMsgs (tiUpd : String → String → String) (m : stackModel)
    (es : List stackMsg) : stackModel :=
  es.foldl (fun acc e => (stackModel.Update tiUpd acc e).1) m

/-! ## Tags flow (`tagsModel`, tag browser, src/unnamed/part_001) -/

/-- The `tagsState` enum (part_001 lines 1381-1386). -/
inductive tagsState where
  | loading | list | done | error
  deriving DecidableEq, Repr

/-- Tag metadata, with the fields `tagsModel` reads (`TagInfo` as used by
part_001: name, message, short hash, relative time). -/
structure TagInfo where
  Name : String
  Message : String
  ShortHash : String
  RelativeTime : String
  deriving DecidableEq, Repr

/-- The tag browser session (`tagsModel` struct, part_001 lines 1388-1401). -/
structure tagsModel where
  state : tagsState
  textInput : String
  tags : List TagInfo
  filteredTags : List TagInfo
  cursor : Int
  err : Option String
  filterMode : Bool
  filterQuery : String
  showHelp : Bool
  width : Int
  height : Int
  deriving DecidableEq, Repr

/-- Tags-flow events (part_001 lines 1403-1406, window sizing, key presses). -/
inductive tagsMsg where
  | windowSize (width height : Int)
  | key (s : String)
  | getTags (tags : List TagInfo) (err : Option String)
  deriving DecidableEq, Repr

/-- Commands the tags flow schedules. -/
inductive tagsCmd where
  | quit
  | blink
  deriving DecidableEq, Repr

/-- Predicate of `tagsModel.applyFilter` (part_001 lines 1544-1549): name,
message or short hash contains the query, both sides lowered. -/
def tagMatches (query : String) (t : TagInfo) : Bool :=
  strContains (lowerStr t.Name) (lowerStr query) ||
  strContains (lowerStr t.Message) (lowerStr query) ||
  strContains (lowerStr t.ShortHash) (lowerStr query)

/-- Embedding of `tagsModel.applyFilter` (part_001 lines 1535-1553). -/
def tagsModel.applyFilter (m : tagsModel) : tagsModel :=
  if m.filterQuery = "" then
    { m with filteredTags := m.tags }
  else
    { m with filteredTags := m.tags.filter (tagMatches m.filterQuery) }

/-- Embedding of `tagsModel.getDisplayTags` (part_001 lines 1555-1566). -/
def tagsModel.getDisplayTags (m : tagsModel) : List TagInfo :=
  if m.filterQuery ≠ "" then m.filteredTags else m.tags

/-- Embedding of `tagsModel.Update` (part_001 lines 1440-1533). -/
def tagsModel.Update (tiUpd : String → String → String) (m : tagsModel)
    (msg : tagsMsg) : tagsModel × Option tagsCmd :=
  match msg with
  | .windowSize w h => ({ m with width := w, height := h }, none)
  | .key s =>
    if m.state = tagsState.list then
      if !m.filterMode ∧ s = "/" then
        ({ m with filterMode := true, filterQuery := "", textInput := "" },
          some tagsCmd.blink)
      else if m.filterMode then
        if s = "esc" ∨ s = "ctrl+c" ∨ s = "q" then
          ({ m with filterMode := false, filterQuery := "", textInput := "",
                    filteredTags := m.tags, cursor := 0 }, none)
        else if s = "enter" then
          ({ m with filterMode := false }, none)
        else
          let m1 := { m with textInput := tiUpd m.textInput s }
          let m2 := { m1 with filterQuery := m1.textInput }
          ({ m2.applyFilter with cursor := 0 }, none)
      else
        if s = "ctrl+c" ∨ s = "q" then (m, some tagsCmd.quit)
        else if s = "up" ∨ s = "k" then
          (if m.cursor > 0 then { m with cursor := m.cursor - 1 } else m, none)
        else if s = "down" ∨ s = "j" then
          (if m.cursor < (m.getDisplayTags.length : Int) - 1 then
            { m with cursor := m.cursor + 1 } else m, none)
        else if s = "g" then ({ m with cursor := 0 }, none)
        else if s = "G" then
          ({ m with cursor := (m.getDisplayTags.length : Int) - 1 }, none)
        else if s = "c" then
          ({ m with filterQuery := "", textInput := "",
                    filteredTags := m.tags, cursor := 0 }, none)
        else if s = "?" then ({ m with showHelp := !m.showHelp }, none)
        else (m, none)
    else (m, none)
  | .getTags tags e =>
    match e with
    | some msg => ({ m with state := tagsState.error, err := some msg }, some tagsCmd.quit)
    | none =>
      let m1 := { m with tags := tags, filteredTags := tags }
      if tags.length = 0 then
        ({ m1 with state := tagsState.error, err := some "no tags found" },
          some tagsCmd.quit)
      else
        ({ m1 with state := tagsState.list }, none)

/-- Fold a list of events through the tags-flow transition. -/
def tagsApplyMsgs (tiUpd : String → String → String) (m : tagsModel)
    (es : List tagsMsg) : tagsModel :=
  es.foldl (fun acc e => (tagsModel.Update tiUpd acc e).1) m

/-! ## Concrete fixtures for counterexamples and witnesses -/

/-- A sample save-flow session sitting in the generating state (the point
where the `generateMsgMsg` completion is expected). -/
def genModel : model :=
  { state := state.generating, textInput := "", err := none, diff := "d",
    commitMessage := "", originalMsg := "", cursor := 0, seed := 42,
    ollamaRunning := true, stagedChanges := true, generatedMsg := false,
    userConfirmed := false, useCustomMsg := false }

/-- A sample save-flow session in the confirming state with a generated
message on display. -/
def confirmingModel : model :=
  { state := state.confirming, textInput := "", err := none, diff := "d",
    commitMessage := "feat: add things", originalMsg := "", cursor := 0,
    seed := 42, ollamaRunning := true, stagedChanges := true,
    generatedMsg := true, userConfirmed := false, useCustomMsg := false }

/-- A sample save-flow session in the staging state (an effect in flight). -/
def stagingModel : model :=
  { state := state.staging, textInput := "", err := none, diff := "",
    commitMessage := "", originalMsg := "", cursor := 0, seed := 42,
    ollamaRunning := true, stagedChanges := false, generatedMsg := false,
    userConfirmed := false, useCustomMsg := false }

/-- A sample save-flow session in the editing state. -/
def editingModel : model :=
  { state := state.editing, textInput := "draft text", err := none, diff := "d",
    commitMessage := "feat: add things", originalMsg := "feat: add things",
    cursor := 0, seed := 42, ollamaRunning := true, stagedChanges := true,
    generatedMsg := true, userConfirmed := false, useCustomMsg := false }

/-- A sample commit for the browsing flows. -/
def sampleCommit : CommitInfo :=
  { Hash := "aaaa1111bbbb", ShortHash := "aaa1111", Message := "first work",
    Author := "ann", Date := "2024-01-01", RelativeTime := "3 days ago" }

/-- A sample tag for the tag browser. -/
def sampleTag : TagInfo :=
  { Name := "v1.0", Message := "release one", ShortHash := "aaa1111",
    RelativeTime := "3 days ago" }

/-- A loaded commit-history browser showing one commit. -/
def stackListModel : stackModel :=
  { state := stackState.list, textInput := "", commits := [sampleCommit],
    filteredCommits := [sampleCommit], cursor := 0, err := none,
    allBranches := false, mineOnly := false, filePath := "", author := "",
    limit := 20, filterMode := false, filterQuery := "", showHelp := true,
    selectedCommit := none }

/-- A loaded tag browser showing one tag. -/
def tagsListModel : tagsModel :=
  { state := tagsState.list, textInput := "", tags := [sampleTag],
    filteredTags := [sampleTag], cursor := 0, err := none,
    filterMode := false, filterQuery := "", showHelp := true,
    width := 80, height := 24 }

/-- Key sequence driving the stack browser into an empty filtered view and
then pressing G: open the filter, type a query matching nothing, apply it
with enter, go to bottom. -/
def stackBugEvents : List stackMsg :=
  [stackMsg.key "/", stackMsg.key "z", stackMsg.key "z", stackMsg.key "z",
   stackMsg.key "enter", stackMsg.key "G"]

/-- The same key sequence for the tag browser. -/
def tagsBugEvents : List tagsMsg :=
  [tagsMsg.key "/", tagsMsg.key "z", tagsMsg.key "z", tagsMsg.key "z",
   tagsMsg.key "enter", tagsMsg.key "G"]

/-- A repository whose current branch differs from the replay target. -/
def envFeature : gitEnv := { currentBranch := "feature", currentBranchErr := none }

/-- A repository already sitting on the replay target branch. -/
def envMain : gitEnv := { currentBranch := "main", currentBranchErr := none }

/-- A replay session waiting for the outcome of the replay effect. -/
def replayingModel : replayModel :=
  { initialReplayModel "main" false with
    state := replayState.replaying
    currentBranch := "feature"
    commits := [sampleCommit] }

/-- The edit round trip of the save flow as one composite run: enter editing
from confirming with the `e` key, process an arbitrary list of key events,
then press the cancel key `c0`.  Composition of `model.Update` only. -/
def editRoundTrip (tiUpd : String → String → String) (m : model)
    (ks : List String) (c0 : String) : model × Option Cmd :=
  model.Update tiUpd
    (applyMsgs tiUpd (model.Update tiUpd m (Msg.key "e")).1 (ks.map Msg.key))
    (Msg.key c0)

/-! ## Helper lemmas -/

theorem containsSeq_nil (l : List Char) : containsSeq l [] = true := by
  cases l <;> simp [containsSeq, startsWithSeq]

theorem strContains_empty (s : String) : strContains s "" = true := by
  have h : ("" : String).data = [] := rfl
  simp only [strContains, h, containsSeq_nil]

theorem lowerStr_empty : lowerStr "" = "" := rfl

theorem commitMatches_empty (c : CommitInfo) : commitMatches "" c = true := by
  simp [commitMatches, lowerStr_empty, strContains_empty]

theorem tagMatches_empty (t : TagInfo) : tagMatches "" t = true := by
  simp [tagMatches, lowerStr_empty, strContains_empty]

/-! ## Claim theorems -/

/-- C6: for every master list and every query, recomputing the filter yields
exactly the order-preserving subsequence of the master list whose searchable
fields case-insensitively contain the query as a substring (message, full
hash, short hash and author for history items; name, message and short hash
for tag items), and an empty query yields the whole master list. -/
theorem applyFilter_exact_subsequence (m : stackModel) (t : tagsModel) :
    (m.applyFilter.filteredCommits = m.commits.filter (commitMatches m.filterQuery)
      ∧ List.Sublist m.applyFilter.filteredCommits m.commits
      ∧ (m.filterQuery = "" → m.applyFilter.filteredCommits = m.commits))
    ∧ (t.applyFilter.filteredTags = t.tags.filter (tagMatches t.filterQuery)
      ∧ List.Sublist t.applyFilter.filteredTags t.tags
      ∧ (t.filterQuery = "" → t.applyFilter.filteredTags = t.tags)) := by
  constructor
  · by_cases h : m.filterQuery = ""
    · have hfull : m.commits.filter (commitMatches "") = m.commits :=
        List.filter_eq_self.mpr (fun a _ => commitMatches_empty a)
      refine ⟨?_, ?_, fun _ => ?_⟩ <;>
        simp [stackModel.applyFilter, h, hfull]
    · refine ⟨?_, ?_, fun hq => absurd hq h⟩ <;>
        simp [stackModel.applyFilter, h, List.filter_sublist]
  · by_cases h : t.filterQuery = ""
    · have hfull : t.tags.filter (tagMatches "") = t.tags :=
        List.filter_eq_self.mpr (fun a _ => tagMatches_empty a)
      refine ⟨?_, ?_, fun _ => ?_⟩ <;>
        simp [tagsModel.applyFilter, h, hfull]
    · refine ⟨?_, ?_, fun hq => absurd hq h⟩ <;>
        simp [tagsModel.applyFilter, h, List.filter_sublist]

/-- C6 witness: the filter theorem applied to the loaded one-commit browser
and the loaded one-tag browser, both with the empty query. -/
theorem applyFilter_exact_subsequence_witness :
    stackListModel.applyFilter.filteredCommits = stackListModel.commits
    ∧ tagsListModel.applyFilter.filteredTags = tagsListModel.tags :=
  ⟨(applyFilter_exact_subsequence stackListModel tagsListModel).1.2.2 rfl,
   (applyFilter_exact_subsequence stackListModel tagsListModel).2.2.2 rfl⟩

/-- C7: every (state, key-event) pair the save-flow transition table does not
explicitly handle leaves the session unchanged and schedules nothing.  Outside
the editing state (where every key is a handled text-input event) the table
handles exactly the keys ctrl+c, q, y, Y, n, N, e, E, and the last six only in
the confirming state; all other pairs fall through to `return m, nil`.
Completion events are matched by type, hence always handled. -/
theorem save_unhandled_events_ignored (tiUpd : String → String → String)
    (m : model) (s : String) :
    (m.state ≠ state.editing →
      s ∉ (["ctrl+c", "q", "y", "Y", "n", "N", "e", "E"] : List String) →
      model.Update tiUpd m (Msg.key s) = (m, none))
    ∧ (m.state ≠ state.editing → m.state ≠ state.confirming →
      s ∈ (["y", "Y", "n", "N", "e", "E"] : List String) →
      model.Update tiUpd m (Msg.key s) = (m, none)) := by
  constructor
  · intro hst hs
    simp only [List.mem_cons, List.not_mem_nil, or_false, not_or] at hs
    obtain ⟨h1, h2, h3, h4, h5, h6, h7, h8⟩ := hs
    simp [model.Update, hst, h1, h2, h3, h4, h5, h6, h7, h8]
  · intro hst hcf hs
    simp only [List.mem_cons, List.not_mem_nil, or_false] at hs
    rcases hs with h | h | h | h | h | h <;>
      subst h <;> simp [model.Update, hst, hcf]

/-- C7 witness: a `y` keypress while the save flow is staging is ignored,
via both parts of the theorem. -/
theorem save_unhandled_events_ignored_witness :
    model.Update textInputModel stagingModel (Msg.key "y") = (stagingModel, none) :=
  (save_unhandled_events_ignored textInputModel stagingModel "y").2
    (by decide) (by decide) (by decide)

/-- C8: a decline event (n, N, q or ctrl+c) in the confirming state of the
save flow moves the session to the terminal done state, sets `lastError` to
the cancellation indicator, and schedules no external effect - only the quit
signal, so the quit key is a decline rather than a silent exit. -/
theorem save_confirming_decline_terminal (tiUpd : String → String → String)
    (m : model) (s : String) (hst : m.state = state.confirming)
    (hs : s = "n" ∨ s = "N" ∨ s = "q" ∨ s = "ctrl+c") :
    (model.Update tiUpd m (Msg.key s)).1.state = state.done
    ∧ (model.Update tiUpd m (Msg.key s)).1.err = some "commit cancelled"
    ∧ state.isTerminal (model.Update tiUpd m (Msg.key s)).1.state = true
    ∧ (model.Update tiUpd m (Msg.key s)).2 = some Cmd.quit
    ∧ (∀ c : Cmd, (model.Update tiUpd m (Msg.key s)).2 = some c →
        Cmd.isEffect c = false) := by
  rcases hs with h | h | h | h <;>
    subst h <;>
    simp [model.Update, hst, state.isTerminal, Cmd.isEffect]

/-- C8 witness: the quit key declines a confirming session. -/
theorem save_confirming_decline_terminal_witness :
    (model.Update textInputModel confirmingModel (Msg.key "q")).1.state = state.done
    ∧ (model.Update textInputModel confirmingModel (Msg.key "q")).1.err =
        some "commit cancelled"
    ∧ state.isTerminal
        (model.Update textInputModel confirmingModel (Msg.key "q")).1.state = true
    ∧ (model.Update textInputModel confirmingModel (Msg.key "q")).2 = some Cmd.quit
    ∧ (∀ c : Cmd, (model.Update textInputModel confirmingModel (Msg.key "q")).2 = some c →
        Cmd.isEffect c = false) :=
  save_confirming_decline_terminal textInputModel confirmingModel "q" rfl
    (by decide)

/-- C10: a plain q keypress never reaches the text-input component in any
save-flow state, and in the editing state it is exactly cancel-edit: restore
the snapshot, return to confirming, schedule nothing.  Hence no event
sequence can extend the committed message by typing q in the editor. -/
theorem q_key_never_edits_text (tiUpd : String → String → String) (m : model) :
    (model.Update tiUpd m (Msg.key "q")).1.textInput = m.textInput
    ∧ (m.state = state.editing →
        model.Update tiUpd m (Msg.key "q") =
          ({ m with commitMessage := m.originalMsg, state := state.confirming },
            none)) := by
  constructor
  · by_cases he : m.state = state.editing
    · simp [model.Update, he]
    · by_cases hc : m.state = state.confirming <;>
        simp [model.Update, he, hc]
  · intro he
    simp [model.Update, he]

/-- C10 witness: cancel-edit via q on a concrete editing session. -/
theorem q_key_never_edits_text_witness :
    (model.Update textInputModel editingModel (Msg.key "q")).1.textInput =
        editingModel.textInput
    ∧ model.Update textInputModel editingModel (Msg.key "q") =
        ({ editingModel with
            commitMessage := editingModel.originalMsg
            state := state.confirming }, none) :=
  ⟨(q_key_never_edits_text textInputModel editingModel).1,
   (q_key_never_edits_text textInputModel editingModel).2 rfl⟩

/-- Typed keys (anything except ctrl+c, q and enter) keep the save flow in
the editing state and never touch the snapshot slot `originalMsg`. -/
theorem editing_typed_keys_invariant (tiUpd : String → String → String) :
    ∀ (ks : List String) (m : model), m.state = state.editing →
      (∀ k ∈ ks, k ≠ "ctrl+c" ∧ k ≠ "q" ∧ k ≠ "enter") →
      (applyMsgs tiUpd m (ks.map Msg.key)).state = state.editing
      ∧ (applyMsgs tiUpd m (ks.map Msg.key)).originalMsg = m.originalMsg := by
  intro ks
  induction ks with
  | nil => intro m hst _; exact ⟨hst, rfl⟩
  | cons k ks ih =>
    intro m hst hks
    obtain ⟨hk1, hk2, hk3⟩ := hks k (List.mem_cons_self k ks)
    have hstep : (model.Update tiUpd m (Msg.key k)).1 =
        { m with textInput := tiUpd m.textInput k } := by
      simp [model.Update, hst, hk1, hk2, hk3]
    have htail : ∀ k2 ∈ ks, k2 ≠ "ctrl+c" ∧ k2 ≠ "q" ∧ k2 ≠ "enter" :=
      fun k2 hmem => hks k2 (List.mem_cons_of_mem k hmem)
    have happ : applyMsgs tiUpd m ((k :: ks).map Msg.key) =
        applyMsgs tiUpd (model.Update tiUpd m (Msg.key k)).1 (ks.map Msg.key) := rfl
    rw [happ, hstep]
    exact ih { m with textInput := tiUpd m.textInput k } hst htail

/-- C9: entering editing from confirming snapshots the commit message, and a
later cancel-edit (ctrl+c or q) returns to confirming with the commit message
equal to its value before editing, whatever text was typed in between, and
schedules nothing. -/
theorem editing_cancel_restores_message (tiUpd : String → String → String)
    (m : model) (ks : List String) (c0 : String)
    (hst : m.state = state.confirming)
    (hks : ∀ k ∈ ks, k ≠ "ctrl+c" ∧ k ≠ "q" ∧ k ≠ "enter")
    (hc : c0 = "ctrl+c" ∨ c0 = "q") :
    (editRoundTrip tiUpd m ks c0).1.state = state.confirming
    ∧ (editRoundTrip tiUpd m ks c0).1.commitMessage = m.commitMessage
    ∧ (editRoundTrip tiUpd m ks c0).2 = none := by
  have henter : (model.Update tiUpd m (Msg.key "e")).1 =
      { m with originalMsg := m.commitMessage, textInput := m.commitMessage,
               state := state.editing } := by
    simp [model.Update, hst]
  have hmid := editing_typed_keys_invariant tiUpd ks
    { m with originalMsg := m.commitMessage, textInput := m.commitMessage,
             state := state.editing } rfl hks
  unfold editRoundTrip
  rw [henter]
  rcases hc with h | h <;>
    subst h <;>
    simp [model.Update, hmid.1, hmid.2]

/-- C9 witness: a concrete round trip - confirm, edit, type a and b, cancel
with q - restores the original message. -/
theorem editing_cancel_restores_message_witness :
    (editRoundTrip textInputModel confirmingModel ["a", "b"] "q").1.state =
        state.confirming
    ∧ (editRoundTrip textInputModel confirmingModel ["a", "b"] "q").1.commitMessage =
        confirmingModel.commitMessage
    ∧ (editRoundTrip textInputModel confirmingModel ["a", "b"] "q").2 = none :=
  editing_cancel_restores_message textInputModel confirmingModel ["a", "b"] "q"
    rfl (by decide) (Or.inr rfl)

/-- C1 counterexample: a replay completion whose output contains CONFLICT but
whose error is nil is routed to the done state, not to the conflict state -
the conflict check runs only inside the error branch of the handler. -/
theorem replay_conflict_without_error_not_conflict :
    (replayModel.Update envFeature replayingModel
      (replayMsg.replayCommits "CONFLICT (content): Merge conflict in a.txt" none)).1.state
      = replayState.done
    ∧ (replayModel.Update envFeature replayingModel
      (replayMsg.replayCommits "CONFLICT (content): Merge conflict in a.txt" none)).1.state
      ≠ replayState.conflict := by
  decide

/-- C1 amended: whenever the replay completion carries a hard error and output
containing CONFLICT (or lowercase conflict), the transition moves the session
to the conflict state, leaves the error slot untouched - so `lastError` stays
unset - and preserves the output for display, scheduling only the quit
signal. -/
theorem replay_conflict_error_routes_to_conflict (env : gitEnv)
    (m : replayModel) (output msg : String)
    (hc : (strContains output "CONFLICT" || strContains output "conflict") = true) :
    replayModel.Update env m (replayMsg.replayCommits output (some msg)) =
      ({ m with state := replayState.conflict, output := output },
        some replayCmd.quit)
    ∧ (replayModel.Update env m (replayMsg.replayCommits output (some msg))).1.err
      = m.err := by
  refine ⟨?_, ?_⟩ <;> simp [replayModel.Update, hc]

/-- C1 amended witness: a failing replay whose git output contains CONFLICT
lands in the conflict state with the error slot still unset. -/
theorem replay_conflict_error_routes_to_conflict_witness :
    replayModel.Update envFeature replayingModel
      (replayMsg.replayCommits "CONFLICT (content): Merge conflict in a.txt"
        (some "exit status 1")) =
      ({ replayingModel with
          state := replayState.conflict
          output := "CONFLICT (content): Merge conflict in a.txt" },
        some replayCmd.quit)
    ∧ (replayModel.Update envFeature replayingModel
        (replayMsg.replayCommits "CONFLICT (content): Merge conflict in a.txt"
          (some "exit status 1"))).1.err = replayingModel.err :=
  replay_conflict_error_routes_to_conflict envFeature replayingModel
    "CONFLICT (content): Merge conflict in a.txt" "exit status 1" (by decide)

/-- C2: the save flow of model.go forwards a whitespace-only generated
message straight to the confirming state instead of treating it as a domain
failure, while the revision of the same handler kept in src/unnamed/part_001
routes exactly this input to the terminal error state. -/
theorem save_whitespace_generated_message_forwarded :
    model.Update textInputModel genModel (Msg.generateMsg "  " none) =
      ({ genModel with
          commitMessage := "  "
          generatedMsg := true
          state := state.confirming }, none)
    ∧ (generateMsgHandlerV2 genModel "  " none).1.state = state.error
    ∧ (generateMsgHandlerV2 genModel "  " none).1.err =
        some "AI generated an empty commit message. Try again or use custom message"
    ∧ state.confirming ≠ state.error := by
  decide

/-- C3 counterexample: the replay transition applied twice to the same
(session, event) pair, differing only in the hidden repository state read by
the embedded `GetCurrentBranch()` call, yields different outputs. -/
theorem replay_update_hidden_read_counterexample :
    replayModel.Update envFeature (initialReplayModel "main" false)
        (replayMsg.checkRebase false none) ≠
      replayModel.Update envMain (initialReplayModel "main" false)
        (replayMsg.checkRebase false none) := by
  decide

/-- C3 amended: the replay transition output is independent of the hidden
current-branch read for every event except a rebase-check completion with
no error and no rebase in progress - the one case where the Go code calls
`GetCurrentBranch()` inside the transition. -/
theorem replay_update_env_independent_otherwise (env1 env2 : gitEnv)
    (m : replayModel) (msg : replayMsg)
    (h : msg ≠ replayMsg.checkRebase false none) :
    replayModel.Update env1 m msg = replayModel.Update env2 m msg := by
  cases msg with
  | key s => rfl
  | getReplayCommits commits e => rfl
  | replayCommits output e => rfl
  | checkRebase inProgress e =>
    cases e with
    | some msg2 => rfl
    | none =>
      cases inProgress with
      | true => rfl
      | false => exact absurd rfl h

/-- C3 amended witness: a keypress event is transitioned identically under
two different repository states. -/
theorem replay_update_env_independent_otherwise_witness :
    replayModel.Update envFeature replayingModel (replayMsg.key "y") =
      replayModel.Update envMain replayingModel (replayMsg.key "y") :=
  replay_update_env_independent_otherwise envFeature envMain replayingModel
    (replayMsg.key "y") (by decide)

/-- C4: in both browsing flows, applying a filter that matches nothing and
then pressing G drives the cursor to -1 while the displayed sequence is
empty, violating the stated cursor invariant (0 on an empty display). -/
theorem browser_G_on_empty_filter_cursor_neg :
    (stackApplyMsgs textInputModel stackListModel stackBugEvents).cursor = -1
    ∧ (stackApplyMsgs textInputModel stackListModel stackBugEvents).getDisplayCommits = []
    ∧ (tagsApplyMsgs textInputModel tagsListModel tagsBugEvents).cursor = -1
    ∧ (tagsApplyMsgs textInputModel tagsListModel tagsBugEvents).getDisplayTags = [] := by
  decide

/-- C5 counterexample: declining at the confirmation step yields a terminal
session with `lastError` set, yet the driver exit code for a clean event-loop
shutdown is 0 - the claim demands a nonzero status here. -/
theorem save_cancelled_session_exit_zero :
    (model.Update textInputModel confirmingModel (Msg.key "n")).1.err =
        some "commit cancelled"
    ∧ state.isTerminal
        (model.Update textInputModel confirmingModel (Msg.key "n")).1.state = true
    ∧ saveDriverExitCode
        (model.Update textInputModel confirmingModel (Msg.key "n")).1 false = 0 := by
  decide

/-- C5 amended: the driver exit status never depends on the final session -
in particular not on `lastError`: it is 0 whenever the event loop itself
succeeded and 1 exactly when the loop machinery failed. -/
theorem saveDriverExitCode_ignores_session (m1 m2 : model) (runFailed : Bool) :
    saveDriverExitCode m1 runFailed = saveDriverExitCode m2 runFailed
    ∧ saveDriverExitCode m1 false = 0
    ∧ saveDriverExitCode m1 true = 1 := by
  cases runFailed <;> simp [saveDriverExitCode]
